import Mathlib

/-!
Verification of the MFEM example driver `examples/ex1.cpp` and of the
spec-described finite-element pipeline it drives (assembly, essential
boundary-condition elimination, preconditioned conjugate gradients).

The driver itself is present in the repository; the MFEM library routines it
calls (`BilinearForm::Assemble`, `BilinearForm::EliminateEssentialBC`, `PCG`,
`GSSmoother`, the serializers `Mesh::Print` and `GridFunction::Save`) are not,
so those are modelled from the specification's contracts and marked as such.

Machine reals (`double`) are modelled by `ℚ` where the code is finite
arithmetic and by `ℝ` for the logarithm-based refinement-level formula.
-/

namespace Ex1

/-! ## Driver control flow (from `examples/ex1.cpp`, lines 24-117)

`main` is straight-line code: after the two argument/file checks it runs the
pipeline stages in a fixed order with no further branching (the only branch,
on `mesh->Dimension() == 2`, selects a string and does not skip any stage).
We model a run by its exit code together with the ordered list of pipeline
stages it executes. -/

/-- The pipeline stages of `main`, in the order the statements appear. -/
inductive Stage where
  | parseMesh
  | refine
  | defineSpace
  | assembleLinearForm
  | setInitialGuess
  | assembleBilinearForm
  | eliminateEssentialBC
  | finalize
  | extractMatrix
  | definePreconditioner
  | solve
  | saveSolutionFile
  | openSocket
  | writeSocketTag
  | printMeshToSocket
  | saveSolutionToSocket
  | sendSocket
  deriving DecidableEq, Repr

/-- The stage sequence of a successful run of `main` (ex1.cpp lines 42-110):
straight-line statements, in source order. -/
def pipelineTrace : List Stage :=
  [.parseMesh, .refine, .defineSpace, .assembleLinearForm, .setInitialGuess,
   .assembleBilinearForm, .eliminateEssentialBC, .finalize, .extractMatrix,
   .definePreconditioner, .solve, .saveSolutionFile, .openSocket,
   .writeSocketTag, .printMeshToSocket, .saveSolutionToSocket, .sendSocket]

/-- `main`'s control flow (ex1.cpp lines 28-41 and fall-through return):
`args` are the positional arguments (so `argc == 1` is `args = []`), and
`canOpen` says whether `ifstream` can open a named file.  Returns the exit
code and the executed stage trace. -/
def runMain (args : List String) (canOpen : String → Bool) : ℕ × List Stage :=
  match args with
  | [] => (1, [])
  | f :: _ => if canOpen f then (0, pipelineTrace) else (2, [])

/-! ## Refinement-level heuristic (from `examples/ex1.cpp`, lines 49-54) -/

/-- `(int)floor(log(50000./mesh->GetNE())/log(2.)/mesh->Dimension())`
(ex1.cpp lines 50-51), with the machine `double` idealized as `ℝ`. -/
noncomputable def refLevels (ne dim : ℕ) : ℤ :=
  ⌊Real.log (50000 / (ne : ℝ)) / Real.log 2 / (dim : ℝ)⌋

/-- The number of `UniformRefinement` calls: the loop
`for (l = 0; l < ref_levels; l++)` (ex1.cpp lines 52-53) runs `ref_levels`
times when that is positive and zero times otherwise. -/
noncomputable def refinementLevelsApplied (ne dim : ℕ) : ℕ :=
  (refLevels ne dim).toNat

/-! ## Socket output (from `examples/ex1.cpp`, lines 100-110) -/

/-- The tag line written first to the visualization socket
(ex1.cpp lines 104-107). -/
def socketTagLine (dim : ℕ) : String :=
  if dim = 2 then "fem2d_gf_data" else "fem3d_gf_data"

/-- The chunks written to the visualization socket, in order: the tag line,
the serialized mesh (`mesh->Print`), the serialized solution (`x.Save`)
(ex1.cpp lines 104-109). -/
def socketChunks (dim : ℕ) (meshSer solSer : String) : List String :=
  [socketTagLine dim ++ "\n", meshSer, solSer]

/-! ## Output-stage state (driver order from source; serializers modelled
from the spec) -/

/-- Driver state visible to the output stages: the mesh, the solution vector
`x`, the files written so far, and the messages sent on the socket.  `μ` and
`ν` abstract the mesh and vector contents. -/
structure OutState (μ ν : Type) where
  mesh : μ
  x : ν
  files : List (String × String)
  socketMsgs : List String

/-- Modelled from the spec: `GridFunction::Save` is a pure serializer of the
solution vector (spec §6 "a serializer writes these in a documented text
format"); the library routine is not under `src/`.  Step 8 of the driver
writes the serialization of `x` to the file `sol.gf` (ex1.cpp lines 97-98). -/
def saveSolutionStep {μ ν : Type} (xSave : ν → String) (st : OutState μ ν) :
    OutState μ ν :=
  { st with files := st.files ++ [("sol.gf", xSave st.x)] }

/-- Modelled from the spec: `Mesh::Print` and `GridFunction::Save` are pure
serializers (spec §6); the library routines are not under `src/`.  Step 9 of
the driver sends the tag line, the serialized mesh and the serialized
solution on the socket (ex1.cpp lines 100-110). -/
def socketOutputStep {μ ν : Type} (meshPrint : μ → String) (xSave : ν → String)
    (dim : ℕ) (st : OutState μ ν) : OutState μ ν :=
  { st with socketMsgs := st.socketMsgs ++ socketChunks dim (meshPrint st.mesh) (xSave st.x) }

/-! ## Essential boundary marking and initial guess (from the driver) -/

/-- `Array<int> ess_bdr(mesh->bdr_attributes.Size()); ess_bdr = 1;`
(ex1.cpp lines 84-85): MFEM's `Array::operator=(T)` fills every entry, so the
marking is a list of `nattr` ones. -/
def essBdrMarking (nattr : ℕ) : List ℤ :=
  List.replicate nattr 1

/-- `x = 0.0` (ex1.cpp line 73): the all-zero initial guess. -/
def initialGuess (n : ℕ) : Fin n → ℚ :=
  fun _ => 0

/-! ## Essential boundary-condition elimination

Modelled from the spec (§4.5): `BilinearForm::EliminateEssentialBC` is a
library routine not under `src/`.  Per essential DOF `d` with prescribed
value `v = solutionGuess[d]`: for every other DOF `j`,
`rhs[j] -= matrix[j][d] * v`; then zero row `d` and column `d` of the matrix
except `matrix[d][d] = 1`, and set `rhs[d] = v`. -/

/-- Modelled from the spec (§4.5): elimination of one essential DOF `d` with
prescribed value `v` from the matrix and the right-hand side. -/
def elimOne {n : ℕ} (d : Fin n) (v : ℚ)
    (A : Fin n → Fin n → ℚ) (rhs : Fin n → ℚ) :
    (Fin n → Fin n → ℚ) × (Fin n → ℚ) :=
  let rhs1 : Fin n → ℚ := fun j => if j = d then rhs j else rhs j - A j d * v
  (fun i j => if i = d ∧ j = d then 1 else if i = d ∨ j = d then 0 else A i j,
   fun j => if j = d then v else rhs1 j)

/-- The essential DOFs, in index order. -/
def essentialDofs {n : ℕ} (ess : Fin n → Bool) : List (Fin n) :=
  (List.finRange n).filter (fun d => ess d)

/-- Modelled from the spec (§4.5): eliminate every essential DOF in turn,
taking each prescribed value from the solution guess. -/
def eliminateEssentialBC {n : ℕ} (ess : Fin n → Bool) (guess : Fin n → ℚ)
    (A : Fin n → Fin n → ℚ) (rhs : Fin n → ℚ) :
    (Fin n → Fin n → ℚ) × (Fin n → ℚ) :=
  (essentialDofs ess).foldl (fun st d => elimOne d (guess d) st.1 st.2) (A, rhs)

/-! ## Assembly (modelled from the spec, §4.4)

`BilinearForm::Assemble` is a library routine not under `src/`.  The spec:
the final matrix equals the sum over all elements of each element's local
stiffness matrix scattered via its DOF map, with add-in-place semantics. -/

/-- Modelled from the spec (§2 item 3, §4.4): one element's contribution —
its local DOF count `k`, its local-to-global DOF map, and its local
stiffness matrix. -/
structure LocalElement (n : ℕ) where
  k : ℕ
  dof : Fin k → Fin n
  loc : Fin k → Fin k → ℚ

/-- Modelled from the spec (§4.4, §3 GlobalVector/SparseMatrix invariant):
the global matrix is the sum over all elements of the local matrices
scattered through the DOF maps. -/
def assembleMatrix {n : ℕ} (elems : List (LocalElement n)) :
    Fin n → Fin n → ℚ :=
  fun i j =>
    (elems.map (fun e => ∑ a : Fin e.k, ∑ b : Fin e.k,
      if e.dof a = i ∧ e.dof b = j then e.loc a b else 0)).sum

/-! ## Preconditioned conjugate gradients

Modelled from the spec (§4.6): the `PCG` routine and `GSSmoother` are library
code not under `src/`.  The spec's contract: iterate the standard
preconditioned CG recurrence until `‖residual‖ ≤ max(relTol·‖r0‖, absTol)`
(terminal success) or the iteration count reaches `maxIter` (terminal
failure, reported as non-convergence).  The preconditioner is abstracted as a
function on vectors, the residual norm as a function `nrm`. -/

/-- Matrix-vector product of the sparse matrix (dense functional model). -/
def matVec {n : ℕ} (A : Fin n → Fin n → ℚ) (v : Fin n → ℚ) : Fin n → ℚ :=
  fun i => ∑ j, A i j * v j

/-- Euclidean inner product. -/
def dot {n : ℕ} (u v : Fin n → ℚ) : ℚ :=
  ∑ i, u i * v i

/-- Modelled from the spec (§4.6): the CG iteration state — solution
estimate, residual, preconditioned residual, search direction. -/
structure PCGState (n : ℕ) where
  x : Fin n → ℚ
  r : Fin n → ℚ
  z : Fin n → ℚ
  p : Fin n → ℚ

/-- Modelled from the spec (§4.6): initial CG state from the guess `x0`. -/
def pcgInit {n : ℕ} (A : Fin n → Fin n → ℚ) (M : (Fin n → ℚ) → Fin n → ℚ)
    (b x0 : Fin n → ℚ) : PCGState n :=
  { x := x0,
    r := fun i => b i - matVec A x0 i,
    z := M (fun i => b i - matVec A x0 i),
    p := M (fun i => b i - matVec A x0 i) }

/-- The CG step length `(r,z)/(p,Ap)`. -/
def pcgAlpha {n : ℕ} (A : Fin n → Fin n → ℚ) (s : PCGState n) : ℚ :=
  dot s.r s.z / dot s.p (matVec A s.p)

/-- The residual after one CG update. -/
def pcgNewR {n : ℕ} (A : Fin n → Fin n → ℚ) (s : PCGState n) : Fin n → ℚ :=
  fun i => s.r i - pcgAlpha A s * matVec A s.p i

/-- The CG direction-update coefficient `(r',z')/(r,z)`. -/
def pcgBeta {n : ℕ} (A : Fin n → Fin n → ℚ) (M : (Fin n → ℚ) → Fin n → ℚ)
    (s : PCGState n) : ℚ :=
  dot (pcgNewR A s) (M (pcgNewR A s)) / dot s.r s.z

/-- Modelled from the spec (§4.6): one iteration of the standard
preconditioned CG recurrence (update estimate, residual, preconditioned
residual, search direction). -/
def pcgStep {n : ℕ} (A : Fin n → Fin n → ℚ) (M : (Fin n → ℚ) → Fin n → ℚ)
    (s : PCGState n) : PCGState n :=
  { x := fun i => s.x i + pcgAlpha A s * s.p i,
    r := pcgNewR A s,
    z := M (pcgNewR A s),
    p := fun i => M (pcgNewR A s) i + pcgBeta A M s * s.p i }

/-- The CG state after `k` iterations from the initial state. -/
def pcgIterate {n : ℕ} (A : Fin n → Fin n → ℚ) (M : (Fin n → ℚ) → Fin n → ℚ)
    (b x0 : Fin n → ℚ) : ℕ → PCGState n
  | 0 => pcgInit A M b x0
  | k + 1 => pcgStep A M (pcgIterate A M b x0 k)

/-- Modelled from the spec (§4.6): the solver loop — stop with success as
soon as the residual norm meets the tolerance, stop with reported failure
when the iteration budget is exhausted.  Returns (iterations done, converged
flag, final state). -/
def pcgLoop {n : ℕ} (A : Fin n → Fin n → ℚ) (M : (Fin n → ℚ) → Fin n → ℚ)
    (nrm : (Fin n → ℚ) → ℚ) (tol : ℚ) :
    PCGState n → ℕ → ℕ → ℕ × Bool × PCGState n
  | s, k, 0 => if nrm s.r ≤ tol then (k, true, s) else (k, false, s)
  | s, k, fuel + 1 =>
    if nrm s.r ≤ tol then (k, true, s)
    else pcgLoop A M nrm tol (pcgStep A M s) (k + 1) fuel

/-- Modelled from the spec (§4.6): the full `PCG` call — form the initial
state, fix the stopping tolerance `max(relTol·‖r0‖, absTol)`, and run up to
`maxIter` iterations. -/
def PCG {n : ℕ} (A : Fin n → Fin n → ℚ) (M : (Fin n → ℚ) → Fin n → ℚ)
    (b x0 : Fin n → ℚ) (nrm : (Fin n → ℚ) → ℚ)
    (maxIter : ℕ) (relTol absTol : ℚ) : ℕ × Bool × PCGState n :=
  pcgLoop A M nrm (max (relTol * nrm (pcgInit A M b x0).r) absTol)
    (pcgInit A M b x0) 0 maxIter

/-- The driver's iteration cap, `PCG(..., 200, ...)` (ex1.cpp line 93). -/
def driverMaxIter : ℕ := 200

/-- The driver's relative tolerance, `1e-12` (ex1.cpp line 93). -/
def driverRelTol : ℚ := 1 / 10 ^ 12

/-- The driver's absolute tolerance, `1e-28` (ex1.cpp line 93). -/
def driverAbsTol : ℚ := 1 / 10 ^ 28

end Ex1

namespace Ex1

/-! ## Theorems: driver control flow -/

/-- C2: exit status 1 with no positional argument, 2 when the mesh file cannot
be opened, 0 on success; in the two failure cases no pipeline stage runs. -/
theorem exit_codes (f : String) (rest : List String) (canOpen : String → Bool) :
    runMain [] canOpen = (1, []) ∧
    (canOpen f = false → runMain (f :: rest) canOpen = (2, [])) ∧
    (canOpen f = true → runMain (f :: rest) canOpen = (0, pipelineTrace)) := by
  refine ⟨rfl, fun h => ?_, fun h => ?_⟩ <;> simp [runMain, h]

/-- Witness for `exit_codes` at a concrete argument list and file system. -/
theorem exit_codes_witness :
    runMain [] (fun _ => false) = (1, []) ∧
    runMain ["star.mesh2d"] (fun _ => false) = (2, []) ∧
    runMain ["star.mesh2d"] (fun _ => true) = (0, pipelineTrace) :=
  ⟨(exit_codes "star.mesh2d" [] (fun _ => false)).1,
   (exit_codes "star.mesh2d" [] (fun _ => false)).2.1 rfl,
   (exit_codes "star.mesh2d" [] (fun _ => true)).2.2 rfl⟩

/-- C3: on every run that succeeds, `EliminateEssentialBC` appears exactly
once in the trace, strictly after the bilinear form's `Assemble` and strictly
before `Finalize`. -/
theorem eliminate_once_between_assemble_and_finalize
    (args : List String) (canOpen : String → Bool)
    (h : (runMain args canOpen).1 = 0) :
    ((runMain args canOpen).2.count .eliminateEssentialBC = 1) ∧
    (runMain args canOpen).2.indexOf Stage.assembleBilinearForm <
      (runMain args canOpen).2.indexOf Stage.eliminateEssentialBC ∧
    (runMain args canOpen).2.indexOf Stage.eliminateEssentialBC <
      (runMain args canOpen).2.indexOf Stage.finalize := by
  match args with
  | [] => simp [runMain] at h
  | f :: rest =>
    by_cases hf : canOpen f = true
    · simp only [runMain, hf, if_true]
      decide
    · simp [runMain, hf] at h

/-- Witness for `eliminate_once_between_assemble_and_finalize` on a concrete
successful run. -/
theorem eliminate_once_witness :
    (runMain ["star.mesh2d"] (fun _ => true)).2.count .eliminateEssentialBC = 1 ∧
    (runMain ["star.mesh2d"] (fun _ => true)).2.indexOf Stage.assembleBilinearForm <
      (runMain ["star.mesh2d"] (fun _ => true)).2.indexOf Stage.eliminateEssentialBC ∧
    (runMain ["star.mesh2d"] (fun _ => true)).2.indexOf Stage.eliminateEssentialBC <
      (runMain ["star.mesh2d"] (fun _ => true)).2.indexOf Stage.finalize :=
  eliminate_once_between_assemble_and_finalize ["star.mesh2d"] (fun _ => true) rfl

/-- C10: on every run that reaches the output stage, the solution file is
written before the socket is opened (hence before any socket failure can
occur), and the socket send is present unconditionally in the trace. -/
theorem solution_file_before_socket
    (args : List String) (canOpen : String → Bool)
    (h : Stage.saveSolutionFile ∈ (runMain args canOpen).2) :
    (runMain args canOpen).2.indexOf Stage.saveSolutionFile <
      (runMain args canOpen).2.indexOf Stage.openSocket ∧
    Stage.sendSocket ∈ (runMain args canOpen).2 := by
  match args with
  | [] => simp [runMain] at h
  | f :: rest =>
    by_cases hf : canOpen f = true
    · simp only [runMain, hf, if_true]
      decide
    · simp [runMain, hf] at h

/-- Witness for `solution_file_before_socket` on a concrete run reaching the
output stage. -/
theorem solution_file_before_socket_witness :
    (runMain ["star.mesh2d"] (fun _ => true)).2.indexOf Stage.saveSolutionFile <
      (runMain ["star.mesh2d"] (fun _ => true)).2.indexOf Stage.openSocket ∧
    Stage.sendSocket ∈ (runMain ["star.mesh2d"] (fun _ => true)).2 :=
  solution_file_before_socket ["star.mesh2d"] (fun _ => true) (by decide)

/-! ## Helper lemmas: elimination with the zero guess -/

/-- Characterization of the matrix after eliminating the DOFs in `l` with
prescribed value `0`: rows and columns of eliminated DOFs are identity-like,
everything else is untouched. -/
lemma foldl_elimOne_zero_fst {n : ℕ} (l : List (Fin n))
    (A : Fin n → Fin n → ℚ) (rhs : Fin n → ℚ) (i j : Fin n) :
    (l.foldl (fun st d => elimOne d 0 st.1 st.2) (A, rhs)).1 i j =
      if i ∈ l ∧ j ∈ l ∧ i = j then 1
      else if i ∈ l ∨ j ∈ l then 0 else A i j := by
  induction l generalizing A rhs with
  | nil => simp
  | cons d t ih =>
    simp only [List.foldl_cons]
    rw [ih]
    by_cases hid : i = d <;> by_cases hjd : j = d <;>
      by_cases hit : i ∈ t <;> by_cases hjt : j ∈ t <;>
        by_cases hij : i = j <;>
          simp_all [elimOne, List.mem_cons]

/-- Characterization of the right-hand side after eliminating the DOFs in
`l` with prescribed value `0`: eliminated entries become `0`, the rest are
unchanged (the update `rhs[j] -= A[j][d] * 0` is a no-op). -/
lemma foldl_elimOne_zero_snd {n : ℕ} (l : List (Fin n))
    (A : Fin n → Fin n → ℚ) (rhs : Fin n → ℚ) (j : Fin n) :
    (l.foldl (fun st d => elimOne d 0 st.1 st.2) (A, rhs)).2 j =
      if j ∈ l then 0 else rhs j := by
  induction l generalizing A rhs with
  | nil => simp
  | cons d t ih =>
    simp only [List.foldl_cons]
    rw [ih]
    by_cases hjd : j = d <;> by_cases hjt : j ∈ t <;>
      simp_all [elimOne, List.mem_cons]

/-- Membership in the essential DOF list is the essential flag. -/
lemma mem_essentialDofs {n : ℕ} (ess : Fin n → Bool) (d : Fin n) :
    d ∈ essentialDofs ess ↔ ess d = true := by
  simp [essentialDofs]

/-- Elimination with the all-zero guess, rewritten through the fold
characterization: the matrix part. -/
lemma eliminate_zero_fst {n : ℕ} (ess : Fin n → Bool)
    (A : Fin n → Fin n → ℚ) (rhs : Fin n → ℚ) (i j : Fin n) :
    (eliminateEssentialBC ess (initialGuess n) A rhs).1 i j =
      if ess i = true ∧ ess j = true ∧ i = j then 1
      else if ess i = true ∨ ess j = true then 0 else A i j := by
  have h := foldl_elimOne_zero_fst (essentialDofs ess) A rhs i j
  simp only [mem_essentialDofs] at h
  simpa only [eliminateEssentialBC, initialGuess] using h

/-- Elimination with the all-zero guess, rewritten through the fold
characterization: the right-hand-side part. -/
lemma eliminate_zero_snd {n : ℕ} (ess : Fin n → Bool)
    (A : Fin n → Fin n → ℚ) (rhs : Fin n → ℚ) (j : Fin n) :
    (eliminateEssentialBC ess (initialGuess n) A rhs).2 j =
      if ess j = true then 0 else rhs j := by
  have h := foldl_elimOne_zero_snd (essentialDofs ess) A rhs j
  simp only [mem_essentialDofs] at h
  simpa only [eliminateEssentialBC, initialGuess] using h

/-- C4: after elimination with the all-zero guess, every essential DOF `d`
has an identity-like row and column (diagonal `1`, off-diagonal `0`) and
right-hand side `0`, while every non-essential DOF's right-hand-side entry is
unchanged (the adjustment subtracts `matrix[j][d] * 0`). -/
theorem eliminate_zero_guess_identity
    {n : ℕ} (ess : Fin n → Bool) (A : Fin n → Fin n → ℚ) (rhs : Fin n → ℚ)
    (d j : Fin n) (hd : ess d = true) :
    (eliminateEssentialBC ess (initialGuess n) A rhs).1 d d = 1 ∧
    (j ≠ d → (eliminateEssentialBC ess (initialGuess n) A rhs).1 d j = 0) ∧
    (j ≠ d → (eliminateEssentialBC ess (initialGuess n) A rhs).1 j d = 0) ∧
    (eliminateEssentialBC ess (initialGuess n) A rhs).2 d = 0 ∧
    (ess j = false → (eliminateEssentialBC ess (initialGuess n) A rhs).2 j = rhs j) := by
  refine ⟨?_, fun hj => ?_, fun hj => ?_, ?_, fun hjf => ?_⟩
  · rw [eliminate_zero_fst]; simp [hd]
  · rw [eliminate_zero_fst]; simp [hd, hj.symm]
  · rw [eliminate_zero_fst]; simp [hd, hj]
  · rw [eliminate_zero_snd]; simp [hd]
  · rw [eliminate_zero_snd]; simp [hjf]

/-- Witness for `eliminate_zero_guess_identity` on a concrete 2×2 system with
DOF 0 essential. -/
theorem eliminate_zero_guess_identity_witness :
    (eliminateEssentialBC (fun d : Fin 2 => d = 0) (initialGuess 2)
        (fun i j => ((i : ℚ) + (j : ℚ) + 1)) (fun j => ((j : ℚ) + 5))).1 0 0 = 1 ∧
    (eliminateEssentialBC (fun d : Fin 2 => d = 0) (initialGuess 2)
        (fun i j => ((i : ℚ) + (j : ℚ) + 1)) (fun j => ((j : ℚ) + 5))).1 0 1 = 0 ∧
    (eliminateEssentialBC (fun d : Fin 2 => d = 0) (initialGuess 2)
        (fun i j => ((i : ℚ) + (j : ℚ) + 1)) (fun j => ((j : ℚ) + 5))).1 1 0 = 0 ∧
    (eliminateEssentialBC (fun d : Fin 2 => d = 0) (initialGuess 2)
        (fun i j => ((i : ℚ) + (j : ℚ) + 1)) (fun j => ((j : ℚ) + 5))).2 0 = 0 ∧
    (eliminateEssentialBC (fun d : Fin 2 => d = 0) (initialGuess 2)
        (fun i j => ((i : ℚ) + (j : ℚ) + 1)) (fun j => ((j : ℚ) + 5))).2 1 = (1 : ℚ) + 5 := by
  have h := eliminate_zero_guess_identity (fun d : Fin 2 => d = 0)
    (fun i j => ((i : ℚ) + (j : ℚ) + 1)) (fun j => ((j : ℚ) + 5)) 0 1 (by decide)
  exact ⟨h.1, h.2.1 (by decide), h.2.2.1 (by decide), h.2.2.2.1,
    h.2.2.2.2 (by decide)⟩

/-! ## Helper lemmas: symmetry of assembly and elimination -/

/-- Scattering a symmetric local matrix through a DOF map gives a symmetric
contribution to the global matrix. -/
lemma scatter_symm {n : ℕ} (e : LocalElement n)
    (hsym : ∀ a b, e.loc a b = e.loc b a) (i j : Fin n) :
    (∑ a : Fin e.k, ∑ b : Fin e.k,
        if e.dof a = i ∧ e.dof b = j then e.loc a b else 0) =
    (∑ a : Fin e.k, ∑ b : Fin e.k,
        if e.dof a = j ∧ e.dof b = i then e.loc a b else 0) := by
  rw [Finset.sum_comm]
  refine Finset.sum_congr rfl fun a _ => Finset.sum_congr rfl fun b _ => ?_
  exact if_congr and_comm (hsym b a) rfl

/-- The assembled matrix is symmetric when every local matrix is. -/
lemma assembleMatrix_symm {n : ℕ} (elems : List (LocalElement n))
    (hsym : ∀ e ∈ elems, ∀ a b, e.loc a b = e.loc b a) (i j : Fin n) :
    assembleMatrix elems i j = assembleMatrix elems j i := by
  induction elems with
  | nil => rfl
  | cons e t ih =>
    have he : ∀ a b, e.loc a b = e.loc b a := hsym e (by simp)
    have ht : ∀ e' ∈ t, ∀ a b, e'.loc a b = e'.loc b a :=
      fun e' he' => hsym e' (by simp [he'])
    simp only [assembleMatrix, List.map_cons, List.sum_cons]
    rw [scatter_symm e he i j]
    have h := ih ht
    simp only [assembleMatrix] at h
    rw [h]

/-- Elimination with the zero guess preserves matrix symmetry. -/
lemma eliminate_zero_preserves_symm {n : ℕ} (ess : Fin n → Bool)
    (A : Fin n → Fin n → ℚ) (rhs : Fin n → ℚ)
    (hA : ∀ i j, A i j = A j i) (i j : Fin n) :
    (eliminateEssentialBC ess (initialGuess n) A rhs).1 i j =
      (eliminateEssentialBC ess (initialGuess n) A rhs).1 j i := by
  rw [eliminate_zero_fst, eliminate_zero_fst]
  by_cases hij : i = j
  · subst hij; rfl
  · have hji : ¬j = i := fun h => hij h.symm
    by_cases hi : ess i = true <;> by_cases hj : ess j = true <;>
      simp [hi, hj, hij, hji, hA i j]

/-- C7: for every element list with symmetric local matrices, the assembled
stiffness matrix is symmetric, and it stays symmetric after essential
boundary-condition elimination with the zero guess. -/
theorem stiffness_symmetric_before_and_after_elimination
    {n : ℕ} (elems : List (LocalElement n)) (ess : Fin n → Bool)
    (rhs : Fin n → ℚ)
    (hsym : ∀ e ∈ elems, ∀ a b, e.loc a b = e.loc b a) (i j : Fin n) :
    assembleMatrix elems i j = assembleMatrix elems j i ∧
    (eliminateEssentialBC ess (initialGuess n) (assembleMatrix elems) rhs).1 i j =
      (eliminateEssentialBC ess (initialGuess n) (assembleMatrix elems) rhs).1 j i :=
  ⟨assembleMatrix_symm elems hsym i j,
   eliminate_zero_preserves_symm ess (assembleMatrix elems) rhs
     (fun i' j' => assembleMatrix_symm elems hsym i' j') i j⟩

/-- Witness for `stiffness_symmetric_before_and_after_elimination` on a
concrete one-element assembly over two DOFs. -/
theorem stiffness_symmetric_witness :
    assembleMatrix [LocalElement.mk 2 (fun a => a)
        (fun a b => if a = b then 2 else -1)] 0 1 =
      assembleMatrix [LocalElement.mk 2 (fun a => a)
        (fun a b => if a = b then 2 else -1)] 1 0 ∧
    (eliminateEssentialBC (fun d : Fin 2 => d = 0) (initialGuess 2)
        (assembleMatrix [LocalElement.mk 2 (fun a => a)
          (fun a b => if a = b then 2 else -1)]) (fun _ => 3)).1 0 1 =
      (eliminateEssentialBC (fun d : Fin 2 => d = 0) (initialGuess 2)
        (assembleMatrix [LocalElement.mk 2 (fun a => a)
          (fun a b => if a = b then 2 else -1)]) (fun _ => 3)).1 1 0 :=
  stiffness_symmetric_before_and_after_elimination
    [LocalElement.mk 2 (fun a => a) (fun a b => if a = b then 2 else -1)]
    (fun d : Fin 2 => d = 0) (fun _ => 3) (by decide) 0 1

/-! ## Theorems: socket output and output-stage framing -/

/-- C8: the first chunk written to the visualization socket is the tag line,
`fem2d_gf_data` exactly when the mesh dimension is 2 and `fem3d_gf_data`
otherwise, followed by the serialized mesh and then the serialized
solution. -/
theorem socket_stream_format (dim : ℕ) (meshSer solSer : String)
    (hdim : dim ≠ 2) :
    socketChunks 2 meshSer solSer = ["fem2d_gf_data" ++ "\n", meshSer, solSer] ∧
    socketChunks dim meshSer solSer = ["fem3d_gf_data" ++ "\n", meshSer, solSer] := by
  constructor
  · rfl
  · simp [socketChunks, socketTagLine, hdim]

/-- Witness for `socket_stream_format` at dimension 3 and concrete
serializations. -/
theorem socket_stream_format_witness :
    socketChunks 2 "MESH" "SOL" = ["fem2d_gf_data" ++ "\n", "MESH", "SOL"] ∧
    socketChunks 3 "MESH" "SOL" = ["fem3d_gf_data" ++ "\n", "MESH", "SOL"] :=
  socket_stream_format 3 "MESH" "SOL" (by decide)

/-- C9: the output stages run strictly after the solve (trace order), and
both output steps leave the in-memory solution and mesh unchanged, writing
content that is a function of `x` and the mesh only: the file stage appends
exactly `("sol.gf", xSave x)` and the socket stage appends exactly the tag
line, the serialized mesh and the serialized solution. -/
theorem output_after_solve_reads_only {μ ν : Type}
    (meshPrint : μ → String) (xSave : ν → String) (dim : ℕ)
    (st : OutState μ ν) :
    pipelineTrace.indexOf Stage.solve < pipelineTrace.indexOf Stage.saveSolutionFile ∧
    pipelineTrace.indexOf Stage.solve < pipelineTrace.indexOf Stage.openSocket ∧
    (saveSolutionStep xSave st).x = st.x ∧
    (saveSolutionStep xSave st).mesh = st.mesh ∧
    (saveSolutionStep xSave st).socketMsgs = st.socketMsgs ∧
    (saveSolutionStep xSave st).files = st.files ++ [("sol.gf", xSave st.x)] ∧
    (socketOutputStep meshPrint xSave dim st).x = st.x ∧
    (socketOutputStep meshPrint xSave dim st).mesh = st.mesh ∧
    (socketOutputStep meshPrint xSave dim st).files = st.files ∧
    (socketOutputStep meshPrint xSave dim st).socketMsgs =
      st.socketMsgs ++ [socketTagLine dim ++ "\n", meshPrint st.mesh, xSave st.x] :=
  ⟨by decide, by decide, rfl, rfl, rfl, rfl, rfl, rfl, rfl, rfl⟩

/-! ## Theorems: the PCG solve -/

/-- Loop analysis: a `true` flag means the returned residual meets the
tolerance; a `false` flag means the full iteration budget was used and the
final residual still misses the tolerance (non-convergence is reported, not
silently dropped). -/
lemma pcgLoop_spec {n : ℕ} (A : Fin n → Fin n → ℚ)
    (M : (Fin n → ℚ) → Fin n → ℚ) (nrm : (Fin n → ℚ) → ℚ) (tol : ℚ) :
    ∀ (fuel : ℕ) (s : PCGState n) (k : ℕ),
      ((pcgLoop A M nrm tol s k fuel).2.1 = true →
        nrm (pcgLoop A M nrm tol s k fuel).2.2.r ≤ tol) ∧
      ((pcgLoop A M nrm tol s k fuel).2.1 = false →
        (pcgLoop A M nrm tol s k fuel).1 = k + fuel ∧
        ¬nrm (pcgLoop A M nrm tol s k fuel).2.2.r ≤ tol) := by
  intro fuel
  induction fuel with
  | zero =>
    intro s k
    by_cases h : nrm s.r ≤ tol <;> simp [pcgLoop, h]
  | succ m ih =>
    intro s k
    by_cases h : nrm s.r ≤ tol
    · simp [pcgLoop, h]
    · have hrec := ih (pcgStep A M s) (k + 1)
      simp only [pcgLoop, h, if_false]
      refine ⟨hrec.1, fun hf => ?_⟩
      obtain ⟨h1, h2⟩ := hrec.2 hf
      exact ⟨by omega, h2⟩

/-- If the initial residual already meets the stopping tolerance, the solve
returns immediately with success after zero iterations (whatever the
iteration budget). -/
lemma PCG_stops_immediately {n : ℕ} (A : Fin n → Fin n → ℚ)
    (M : (Fin n → ℚ) → Fin n → ℚ) (b x0 : Fin n → ℚ)
    (nrm : (Fin n → ℚ) → ℚ) (maxIter : ℕ) (relTol absTol : ℚ)
    (h : nrm (pcgInit A M b x0).r ≤
      max (relTol * nrm (pcgInit A M b x0).r) absTol) :
    PCG A M b x0 nrm maxIter relTol absTol = (0, true, pcgInit A M b x0) := by
  unfold PCG
  cases maxIter <;> simp [pcgLoop, h]

/-- C5: with the driver's parameters (maxIter 200, relTol 1e-12, absTol
1e-28), the solve stops with success only when the residual norm satisfies
`‖r‖ ≤ max(relTol·‖r0‖, absTol)`, and otherwise stops at exactly `maxIter`
iterations with the failure flag raised (non-convergence reported) and the
stopping criterion indeed unmet. -/
theorem pcg_termination {n : ℕ} (A : Fin n → Fin n → ℚ)
    (M : (Fin n → ℚ) → Fin n → ℚ) (b x0 : Fin n → ℚ)
    (nrm : (Fin n → ℚ) → ℚ) :
    ((PCG A M b x0 nrm driverMaxIter driverRelTol driverAbsTol).2.1 = true →
      nrm (PCG A M b x0 nrm driverMaxIter driverRelTol driverAbsTol).2.2.r ≤
        max (driverRelTol * nrm (pcgInit A M b x0).r) driverAbsTol) ∧
    ((PCG A M b x0 nrm driverMaxIter driverRelTol driverAbsTol).2.1 = false →
      (PCG A M b x0 nrm driverMaxIter driverRelTol driverAbsTol).1 = driverMaxIter ∧
      ¬nrm (PCG A M b x0 nrm driverMaxIter driverRelTol driverAbsTol).2.2.r ≤
        max (driverRelTol * nrm (pcgInit A M b x0).r) driverAbsTol) := by
  have h := pcgLoop_spec A M nrm
    (max (driverRelTol * nrm (pcgInit A M b x0).r) driverAbsTol)
    driverMaxIter (pcgInit A M b x0) 0
  refine ⟨h.1, fun hf => ?_⟩
  obtain ⟨h1, h2⟩ := h.2 hf
  exact ⟨h1.trans (Nat.zero_add driverMaxIter), h2⟩

/-- Witness for `pcg_termination`: a 1×1 system with zero right-hand side,
whose initial residual already meets the tolerance. -/
theorem pcg_termination_witness :
    (fun r : Fin 1 → ℚ => |r 0|)
      (PCG (fun _ _ => (1 : ℚ)) (fun v => v) (initialGuess 1) (initialGuess 1)
        (fun r : Fin 1 → ℚ => |r 0|) driverMaxIter driverRelTol driverAbsTol).2.2.r ≤
      max (driverRelTol *
        (fun r : Fin 1 → ℚ => |r 0|)
          (pcgInit (fun _ _ => (1 : ℚ)) (fun v => v) (initialGuess 1) (initialGuess 1)).r)
        driverAbsTol := by
  have hle : (fun r : Fin 1 → ℚ => |r 0|)
      (pcgInit (fun _ _ => (1 : ℚ)) (fun v => v) (initialGuess 1) (initialGuess 1)).r ≤
      max (driverRelTol *
        (fun r : Fin 1 → ℚ => |r 0|)
          (pcgInit (fun _ _ => (1 : ℚ)) (fun v => v) (initialGuess 1) (initialGuess 1)).r)
        driverAbsTol := by
    simp [pcgInit, matVec, initialGuess]
  have hconv : (PCG (fun _ _ => (1 : ℚ)) (fun v => v) (initialGuess 1) (initialGuess 1)
      (fun r : Fin 1 → ℚ => |r 0|) driverMaxIter driverRelTol driverAbsTol).2.1 = true := by
    rw [PCG_stops_immediately (fun _ _ => (1 : ℚ)) (fun v => v) (initialGuess 1)
      (initialGuess 1) (fun r : Fin 1 → ℚ => |r 0|) driverMaxIter driverRelTol
      driverAbsTol hle]
  exact (pcg_termination (fun _ _ => (1 : ℚ)) (fun v => v) (initialGuess 1)
    (initialGuess 1) (fun r : Fin 1 → ℚ => |r 0|)).1 hconv

/-! ## Helper lemmas: essential DOFs through the CG recurrence -/

/-- An identity-like matrix row makes the matrix-vector product reproduce the
vector entry at that row. -/
lemma matVec_identity_row {n : ℕ} (A : Fin n → Fin n → ℚ) (d : Fin n)
    (hA : ∀ j, A d j = if j = d then 1 else 0) (v : Fin n → ℚ) :
    matVec A v d = v d := by
  simp [matVec, hA, ite_mul]

/-- One CG step keeps the solution estimate, residual and search direction
zero at a DOF whose matrix row is identity-like, provided the preconditioner
preserves zero entries there. -/
lemma pcgStep_essential {n : ℕ} (A : Fin n → Fin n → ℚ)
    (M : (Fin n → ℚ) → Fin n → ℚ) (d : Fin n)
    (hA : ∀ j, A d j = if j = d then 1 else 0)
    (hM : ∀ v, v d = 0 → M v d = 0)
    (s : PCGState n) (hx : s.x d = 0) (hr : s.r d = 0) (hp : s.p d = 0) :
    (pcgStep A M s).x d = 0 ∧ (pcgStep A M s).r d = 0 ∧
    (pcgStep A M s).z d = 0 ∧ (pcgStep A M s).p d = 0 := by
  have hAp : matVec A s.p d = 0 := by
    rw [matVec_identity_row A d hA]; exact hp
  have hr1 : pcgNewR A s d = 0 := by simp [pcgNewR, hr, hAp]
  have hz1 : M (pcgNewR A s) d = 0 := hM _ hr1
  exact ⟨by simp [pcgStep, hx, hp], by simpa [pcgStep] using hr1,
    by simpa [pcgStep] using hz1, by simp [pcgStep, hz1, hp]⟩

/-- Every CG iterate started from the zero guess keeps the essential DOF `d`
at exactly zero, when row `d` of the matrix is identity-like, `b d = 0`, and
the preconditioner preserves zero entries at `d`. -/
lemma pcg_essential_invariant {n : ℕ} (A : Fin n → Fin n → ℚ)
    (M : (Fin n → ℚ) → Fin n → ℚ) (b : Fin n → ℚ) (d : Fin n)
    (hA : ∀ j, A d j = if j = d then 1 else 0)
    (hb : b d = 0)
    (hM : ∀ v, v d = 0 → M v d = 0) :
    ∀ k, (pcgIterate A M b (initialGuess n) k).x d = 0 ∧
         (pcgIterate A M b (initialGuess n) k).r d = 0 ∧
         (pcgIterate A M b (initialGuess n) k).p d = 0 := by
  intro k
  induction k with
  | zero =>
    have hr0 : (pcgInit A M b (initialGuess n)).r d = 0 := by
      simp [pcgInit, matVec, initialGuess, hb]
    exact ⟨rfl, hr0, hM _ hr0⟩
  | succ m ih =>
    obtain ⟨hx, hr, hp⟩ := ih
    have h := pcgStep_essential A M d hA hM _ hx hr hp
    exact ⟨h.1, h.2.1, h.2.2.2⟩

/-- C6: the driver marks every boundary attribute essential (all entries of
the marking are 1), and after elimination has made row `d` identity-like
with `b d = 0`, any number of PCG iterations from the zero initial guess
leaves the solution exactly `0` at the essential DOF `d` (the preconditioner
is assumed to preserve zero entries at `d`, as the symmetric Gauss-Seidel
smoother of an identity-like row does). -/
theorem boundary_dofs_marked_and_solution_zero {n nattr : ℕ}
    (A : Fin n → Fin n → ℚ) (M : (Fin n → ℚ) → Fin n → ℚ) (b : Fin n → ℚ)
    (d : Fin n) (k : ℕ)
    (hA : ∀ j, A d j = if j = d then 1 else 0)
    (hb : b d = 0)
    (hM : ∀ v, v d = 0 → M v d = 0) :
    (∀ v ∈ essBdrMarking nattr, v = 1) ∧
    (pcgIterate A M b (initialGuess n) k).x d = 0 :=
  ⟨fun _ hv => List.eq_of_mem_replicate hv,
   (pcg_essential_invariant A M b d hA hb hM k).1⟩

/-- Witness for `boundary_dofs_marked_and_solution_zero`: three iterations on
a concrete 2×2 identity system with DOF 0 essential. -/
theorem boundary_dofs_marked_witness :
    (pcgIterate (fun i j : Fin 2 => if j = i then (1 : ℚ) else 0) (fun v => v)
      (fun i : Fin 2 => if i = 0 then 0 else 7) (initialGuess 2) 3).x 0 = 0 :=
  (@boundary_dofs_marked_and_solution_zero 2 4
    (fun i j : Fin 2 => if j = i then (1 : ℚ) else 0) (fun v => v)
    (fun i : Fin 2 => if i = 0 then 0 else 7) 0 3
    (by decide) (by decide) (fun _ h => h)).2

/-! ## Theorems: the refinement-level heuristic -/

/-- `refLevels` in terms of the subdivision factor `2^dim`: dividing by
`log 2` and then by `dim` is dividing by `log (2^dim)`. -/
lemma refLevels_eq_floor_log_base (ne dim : ℕ) :
    refLevels ne dim =
      ⌊Real.log (50000 / (ne : ℝ)) / Real.log ((2 : ℝ) ^ dim)⌋ := by
  unfold refLevels
  congr 1
  rw [div_div, Real.log_pow, mul_comm (Real.log 2) ((dim : ℝ))]

/-- C1: the number of uniform refinement levels applied equals
`floor(log(50000 / NE) / log(2^dim))` clamped to `≥ 0` (the subdivision
factor being `2^dim`), and — for `NE ≥ 1`, `dim ≥ 1` — the resulting
bound `L ≤ refLevels` holds exactly when refining `L` times keeps the
element count `NE·(2^dim)^L` at or below 50000, so the clamped value is the
largest such `L` whenever the initial count is already within bound. -/
theorem refinement_levels_formula (ne dim : ℕ)
    (hne : 1 ≤ ne) (hdim : 1 ≤ dim) (L : ℕ) :
    (refinementLevelsApplied ne dim : ℤ) =
      max 0 ⌊Real.log (50000 / (ne : ℝ)) / Real.log ((2 : ℝ) ^ dim)⌋ ∧
    (ne * (2 ^ dim) ^ L ≤ 50000 ↔ (L : ℤ) ≤ refLevels ne dim) := by
  have hne' : (0 : ℝ) < (ne : ℝ) := by exact_mod_cast hne
  have hq : (0 : ℝ) < 50000 / (ne : ℝ) := by positivity
  have hbase : (1 : ℝ) < (2 : ℝ) ^ dim := one_lt_pow₀ one_lt_two (by omega)
  have hlogpos : 0 < Real.log ((2 : ℝ) ^ dim) := Real.log_pos hbase
  have hXpos : (0 : ℝ) < ((2 : ℝ) ^ dim) ^ L := by positivity
  constructor
  · unfold refinementLevelsApplied
    rw [Int.toNat_eq_max, refLevels_eq_floor_log_base, max_comm]
  · rw [refLevels_eq_floor_log_base, Int.le_floor]
    push_cast
    rw [le_div_iff₀ hlogpos, ← Real.log_pow, Real.log_le_log_iff hXpos hq,
      le_div_iff₀ hne', mul_comm (((2 : ℝ) ^ dim) ^ L) ((ne : ℝ))]
    norm_cast

/-- Witness for `refinement_levels_formula` at `NE = 2`, `dim = 2`,
`L = 3`. -/
theorem refinement_levels_formula_witness :
    ((refinementLevelsApplied 2 2 : ℤ) =
      max 0 ⌊Real.log (50000 / ((2 : ℕ) : ℝ)) / Real.log ((2 : ℝ) ^ (2 : ℕ))⌋) ∧
    ((2 : ℕ) * (2 ^ (2 : ℕ)) ^ (3 : ℕ) ≤ 50000 ↔ ((3 : ℕ) : ℤ) ≤ refLevels 2 2) :=
  refinement_levels_formula 2 2 (by decide) (by decide) 3

end Ex1
